import Mathlib

/-!
Verification of the profit-app order aggregation and profit-waterfall engine.

The definitions below are a shallow embedding of the TypeScript source
(`app/routes/app._index.tsx`, the report components, and `app/lib/constants.ts`).
Monetary amounts are modelled as exact rationals (the source manipulates decimal
currency strings parsed with `parseFloat`; the engine's documented intent is
decimal arithmetic).  JavaScript `Math.round` is floor-of-x-plus-half; JS `Map`
objects are modelled as insertion-ordered association lists whose `set` replaces
an existing key in place and appends a fresh key at the end, exactly as JS does.
Timestamps are modelled by the millisecond epoch value of `createdAt` together
with its ISO string (the two views the source uses).
-/

namespace ProfitApp

/-! ### Money and rounding helpers -/

/-- JS `Math.round`: floor of `x + 1/2` (half rounds toward positive infinity). -/
def jsRound (x : ℚ) : ℤ := ⌊x + 1/2⌋

/-- `Math.round(x * 100) / 100` — rounding a currency amount to cents. -/
def round2 (x : ℚ) : ℚ := (jsRound (x * 100) : ℚ) / 100

/-- `Math.round(x * 10) / 10` — rounding a percentage to one decimal. -/
def round1 (x : ℚ) : ℚ := (jsRound (x * 10) : ℚ) / 10

/-- JS `a || b` on strings wrapped in `Option` (absent or empty falls back). -/
def jsOrStr (a : Option String) (b : String) : String :=
  match a with
  | some s => if s.isEmpty then b else s
  | none => b

/-- JS `a || b` where `a`, `b` are possibly-undefined numbers: a defined nonzero
left operand wins, otherwise the right operand is returned as-is. -/
def jsOrQ (a b : Option ℚ) : Option ℚ :=
  match a with
  | some x => if x = 0 then b else some x
  | none => b

/-! ### JS string helpers (`toLowerCase`, `includes`, `trim`) -/

/-- Character-wise lower-casing, the ASCII behaviour of JS `toLowerCase`. -/
def lowerStr (s : String) : String := ⟨s.data.map Char.toLower⟩

/-- Drop whitespace from both ends of a character list. -/
def trimChars (l : List Char) : List Char :=
  ((l.dropWhile Char.isWhitespace).reverse.dropWhile Char.isWhitespace).reverse

/-- JS `s.trim()`. -/
def jsTrim (s : String) : String := ⟨trimChars s.data⟩

/-- Does the list start with the given pattern? -/
def charsStart : List Char → List Char → Bool
  | _, [] => true
  | [], _ :: _ => false
  | c :: cs, p :: ps => c = p && charsStart cs ps

/-- Does the list contain the pattern as a contiguous run? -/
def charsContain : List Char → List Char → Bool
  | [], pat => pat.isEmpty
  | c :: cs, pat => charsStart (c :: cs) pat || charsContain cs pat

/-- JS `s.includes(pat)`. -/
def strIncludes (s pat : String) : Bool := charsContain s.toList pat.toList

/-! ### JS `Map`, modelled as an insertion-ordered association list -/

/-- `Map.get`. -/
def mapGet {α β : Type} [DecidableEq α] : List (α × β) → α → Option β
  | [], _ => none
  | (k', v') :: rest, k => if k = k' then some v' else mapGet rest k

/-- `Map.set`: replaces an existing key in place, appends a fresh key. -/
def mapSet {α β : Type} [DecidableEq α] : List (α × β) → α → β → List (α × β)
  | [], k, v => [(k, v)]
  | (k', v') :: rest, k, v =>
      if k = k' then (k, v) :: rest else (k', v') :: mapSet rest k v

/-! ### Data model: orders and line items as fetched from the feed -/

/-- The product reference carried by a line item. -/
structure ShopProduct where
  id : String
  title : String
  productType : String
  tags : List String
  deriving DecidableEq, Inhabited

/-- One line item of an order (union of the fields the various report queries
select: the dashboard query omits `sku`, the SKU query omits `tags`, etc.). -/
structure LineItem where
  product : Option ShopProduct
  quantity : ℕ
  sku : Option String
  title : Option String
  variantTitle : Option String
  originalTotal : ℚ
  discountTotal : ℚ
  deriving DecidableEq, Inhabited

/-- One paid order as returned by the order feed. -/
structure Order where
  id : String
  name : String
  createdMs : ℤ
  createdIso : String
  customerId : Option String
  channelName : Option String
  totalPrice : ℚ
  subtotal : ℚ
  totalDiscounts : ℚ
  totalShipping : ℚ
  gatewayNames : List String
  lineItems : List LineItem
  deriving DecidableEq, Inhabited

/-! ### Fiscal week numbering (`getWeekNumber`) -/

def msPerDay : ℤ := 1000 * 60 * 60 * 24

/-- `getWeekNumber`: `floor(floor((t − startOfYear) / msPerDay) / 7) + 1`,
with `epochMs` the millisecond timestamp of `new Date(2025, 0, 1)`. -/
def getWeekNumber (tMs epochMs : ℤ) : ℤ :=
  ((tMs - epochMs).fdiv msPerDay).fdiv 7 + 1

/-! ### Period keys derived from the ISO `createdAt` string -/

/-- `createdAt.split('T')[0]`: the prefix before the first `T`. -/
def dayKeyOf (iso : String) : String := ⟨iso.data.takeWhile (fun c => c ≠ 'T')⟩

/-- `dayKey.substring(0, 7)`, a `YYYY-MM` key. -/
def monthKeyOf (iso : String) : String := ⟨(dayKeyOf iso).data.take 7⟩

/-- Decimal parse of a digit run, the effect of JS `Number` on the year and
month components of a well-formed `YYYY-MM` key. -/
def digitsToNat (l : List Char) : ℕ :=
  l.foldl (fun n c => n * 10 + (c.toNat - 48)) 0

/-- The quarter key built from the month key:
`year + "-Q" + (floor((month - 1) / 3) + 1)`.  (On a malformed key JS would
produce a NaN label; here natural subtraction bottoms out at quarter 1 — the
label text on malformed input is irrelevant to every report property.) -/
def quarterKeyOf (iso : String) : String :=
  let mk := (monthKeyOf iso).data
  let y := digitsToNat (mk.takeWhile (fun c => c ≠ '-'))
  let m := digitsToNat ((mk.dropWhile (fun c => c ≠ '-')).drop 1)
  toString y ++ "-Q" ++ toString ((m - 1) / 3 + 1)

/-! ### Dashboard accumulators (weekly / daily / monthly / quarterly) -/

/-- A per-bucket accumulator of the dashboard aggregation. -/
structure Acc where
  grossRevenue : ℚ
  discounts : ℚ
  orderCount : ℕ
  shippingRevenue : ℚ
  itemCount : ℕ
  deriving DecidableEq, Inhabited

def Acc.zero : Acc := ⟨0, 0, 0, 0, 0⟩

/-- Active dashboard filters; `none` models a missing filter or `"all"`. -/
structure DashFilter where
  productId : Option String
  productType : Option String
  deriving DecidableEq, Inhabited

/-- `matchesProduct && matchesType` for one line item. -/
def liMatches (f : DashFilter) (li : LineItem) : Bool :=
  (match f.productId with
   | none => true
   | some pid => li.product.any (fun p => p.id = pid)) &&
  (match f.productType with
   | none => true
   | some pt => li.product.any (fun p => p.productType = pt))

/-- The dashboard's inline discount allocation for one line item (source lines
304-317): a line-level discount is used verbatim; otherwise an order-level
discount is assigned fully to a single line item and prorated by the item's
share of `subtotal + discount` across several. -/
def allocateDiscount (orderSubtotal orderTotalDiscount : ℚ) (lineItemCount : ℕ)
    (li : LineItem) : ℚ :=
  if li.discountTotal > 0 then li.discountTotal
  else if orderTotalDiscount > 0 ∧ orderSubtotal > 0 then
    if lineItemCount = 1 then orderTotalDiscount
    else orderTotalDiscount * (li.originalTotal / (orderSubtotal + orderTotalDiscount))
  else 0

/-- Allocation applied to a line item of a given order. -/
def orderAlloc (o : Order) (li : LineItem) : ℚ :=
  allocateDiscount o.subtotal o.totalDiscounts o.lineItems.length li

/-- The per-order amounts the dashboard accumulates. -/
structure OrderAmounts where
  gross : ℚ
  discounts : ℚ
  shipping : ℚ
  items : ℕ
  deriving DecidableEq, Inhabited

/-- Per-order amounts: in filtered mode only matching line items contribute
(and shipping revenue stays 0); otherwise order-level totals are used. -/
def dashOrderAmounts (f : DashFilter) (o : Order) : OrderAmounts :=
  if f.productId.isSome ∨ f.productType.isSome then
    o.lineItems.foldl
      (fun a li =>
        if liMatches f li then
          { a with
            gross := a.gross + li.originalTotal
            discounts := a.discounts + orderAlloc o li
            items := a.items + li.quantity }
        else a)
      ⟨0, 0, 0, 0⟩
  else
    { gross := o.subtotal + o.totalDiscounts
      discounts := o.totalDiscounts
      shipping := o.totalShipping
      items := (o.lineItems.map (·.quantity)).sum }

/-- The whole mutable state of the dashboard aggregation loop. -/
structure DashState where
  weekly : List (ℤ × Acc)
  daily : List (String × Acc)
  monthly : List (String × Acc)
  quarterly : List (String × Acc)
  totalShippingRevenue : ℚ
  totalItemCount : ℕ
  deriving DecidableEq, Inhabited

/-- `map.get(k) || zero`, add the order's amounts, `map.set(k, ...)`. -/
def bumpMap {α : Type} [DecidableEq α] (m : List (α × Acc)) (k : α)
    (a : OrderAmounts) : List (α × Acc) :=
  let e := (mapGet m k).getD Acc.zero
  mapSet m k
    { grossRevenue := e.grossRevenue + a.gross
      discounts := e.discounts + a.discounts
      orderCount := e.orderCount + 1
      shippingRevenue := e.shippingRevenue + a.shipping
      itemCount := e.itemCount + a.items }

/-- One iteration of the dashboard order loop (source lines 267-374): compute
the period keys and per-order amounts, and accumulate only when
`grossRevenue > 0 || discounts > 0`. -/
def dashStep (epochMs : ℤ) (f : DashFilter) (st : DashState) (o : Order) :
    DashState :=
  let weekNum := getWeekNumber o.createdMs epochMs
  let dayKey := dayKeyOf o.createdIso
  let monthKey := monthKeyOf o.createdIso
  let quarterKey := quarterKeyOf o.createdIso
  let a := dashOrderAmounts f o
  if a.gross > 0 ∨ a.discounts > 0 then
    { weekly := bumpMap st.weekly weekNum a
      daily := bumpMap st.daily dayKey a
      monthly := bumpMap st.monthly monthKey a
      quarterly := bumpMap st.quarterly quarterKey a
      totalShippingRevenue := st.totalShippingRevenue + a.shipping
      totalItemCount := st.totalItemCount + a.items }
  else st

/-- Pre-seeding of the weekly map with zeroed weeks 1..maxWeek. -/
def seedWeekly (maxWeek : ℕ) : List (ℤ × Acc) :=
  (List.range maxWeek).map (fun (i : ℕ) => ((i : ℤ) + 1, Acc.zero))

def initDash (maxWeek : ℕ) : DashState :=
  ⟨seedWeekly maxWeek, [], [], [], 0, 0⟩

/-- The full dashboard accumulation over the fetched order list. -/
def dashRun (epochMs : ℤ) (f : DashFilter) (maxWeek : ℕ) (os : List Order) :
    DashState :=
  os.foldl (dashStep epochMs f) (initDash maxWeek)

/-! ### The dashboard weekly chart (`chartData`, source lines 376-401) -/

structure ChartRow where
  week : ℤ
  grossRevenue : ℚ
  discounts : ℚ
  netRevenue : ℚ
  grossProfit : ℚ
  cm2 : ℚ
  orderCount : ℕ
  shippingRevenue : ℚ
  itemCount : ℕ
  deriving DecidableEq, Inhabited

/-- `netRev = grossRevenue - discounts + shippingRevenue`. -/
def chartNetRev (a : Acc) : ℚ := a.grossRevenue - a.discounts + a.shippingRevenue

/-- `cogs = (grossRevenue - discounts) * (costPercent / 100)` with 40%. -/
def chartCogs (a : Acc) : ℚ := (a.grossRevenue - a.discounts) * (40 / 100)

def chartGp (a : Acc) : ℚ := chartNetRev a - chartCogs a

/-- `fulfill = orderCount * 5 + netRev * 2.9 / 100 + orderCount * 0.30`. -/
def chartFulfill (a : Acc) : ℚ :=
  (a.orderCount : ℚ) * 5 + chartNetRev a * 2.9 / 100 + (a.orderCount : ℚ) * 0.30

/-- One row of the dashboard weekly chart. -/
def chartRow (p : ℤ × Acc) : ChartRow :=
  { week := p.1
    grossRevenue := round2 p.2.grossRevenue
    discounts := round2 p.2.discounts
    netRevenue := round2 (chartNetRev p.2)
    grossProfit := round2 (chartGp p.2)
    cm2 := round2 (chartGp p.2 - chartFulfill p.2)
    orderCount := p.2.orderCount
    shippingRevenue := round2 p.2.shippingRevenue
    itemCount := p.2.itemCount }

/-- Insertion step of the ascending-by-week sort. -/
def insertChartRow (r : ChartRow) : List ChartRow → List ChartRow
  | [] => [r]
  | x :: xs => if r.week ≤ x.week then r :: x :: xs else x :: insertChartRow r xs

/-- `.sort((a, b) => a.week - b.week)`. -/
def sortChart : List ChartRow → List ChartRow
  | [] => []
  | x :: xs => insertChartRow x (sortChart xs)

/-- `chartData`: map the weekly accumulators to rows, sorted by week. -/
def chartData (st : DashState) : List ChartRow :=
  sortChart (st.weekly.map chartRow)

/-! ### Profit-by-product aggregation (source lines 1047-1083) -/

/-- The per-product accumulator of the `profitByProduct` action. -/
structure ProdAcc where
  title : String
  productType : String
  tags : List String
  grossRevenue : ℚ
  discounts : ℚ
  orderCount : ℕ
  itemCount : ℕ
  deriving DecidableEq, Inhabited

/-- State of the product aggregation: the JS `productData` map (modelled
pointwise) and the `orderProductIds` map of already-counted order-id sets. -/
structure ProductAggState where
  data : String → Option ProdAcc
  counted : String → String → Bool

/-- The `orderCount` recorded for a product key (0 when the key is absent). -/
def ProductAggState.countAt (st : ProductAggState) (k : String) : ℕ :=
  match st.data k with
  | some a => a.orderCount
  | none => 0

/-- One line-item iteration of the product aggregation loop: apply the
product-type and tag filters (`continue` on mismatch), skip items without a
truthy product id, accumulate revenue/discount/items, and bump `orderCount`
only when this order id was not already counted for this product. -/
def processProductItem (ptFilter tagFilter : Option String) (orderId : String)
    (st : ProductAggState) (li : LineItem) : ProductAggState :=
  let productType := jsOrStr (li.product.map (·.productType)) ""
  let tags := (li.product.map (·.tags)).getD []
  if (match ptFilter with
      | some fl => productType != fl
      | none => false) then st
  else if (match tagFilter with
      | some t => ! tags.contains t
      | none => false) then st
  else
    match li.product with
    | none => st
    | some p =>
      if p.id = "" then st
      else
        let e := (st.data p.id).getD
          ⟨jsOrStr (some p.title) "Unknown Product", productType, tags, 0, 0, 0, 0⟩
        let base : ProdAcc :=
          { e with
            grossRevenue := e.grossRevenue + li.originalTotal
            discounts := e.discounts + li.discountTotal
            itemCount := e.itemCount + li.quantity }
        if st.counted p.id orderId then
          { st with data := fun k => if k = p.id then some base else st.data k }
        else
          { data := fun k =>
              if k = p.id then some { base with orderCount := base.orderCount + 1 }
              else st.data k
            counted := fun k oid =>
              if k = p.id ∧ oid = orderId then true else st.counted k oid }

/-- Processing one order of the product aggregation. -/
def processProductOrder (ptFilter tagFilter : Option String)
    (st : ProductAggState) (o : Order) : ProductAggState :=
  o.lineItems.foldl (processProductItem ptFilter tagFilter o.id) st

/-- Does this line item touch product key `k` when processed (i.e. it survives
both filters and its truthy product id is `k`)? -/
def hitsProduct (ptFilter tagFilter : Option String) (k : String)
    (li : LineItem) : Bool :=
  !(match ptFilter with
    | some fl => jsOrStr (li.product.map (·.productType)) "" != fl
    | none => false) &&
  !(match tagFilter with
    | some t => ! ((li.product.map (·.tags)).getD []).contains t
    | none => false) &&
  (match li.product with
   | some p => p.id == k && !(p.id == "")
   | none => false)

/-! ### Profit-by-product-type aggregation (source lines 1164-1192) -/

/-- The per-product-type accumulator of the `profitByProductType` action. -/
structure TypeAcc where
  grossRevenue : ℚ
  discounts : ℚ
  orderCount : ℕ
  products : List String
  deriving DecidableEq, Inhabited

/-- State of the product-type aggregation. -/
structure TypeAggState where
  data : String → Option TypeAcc
  counted : String → String → Bool

def TypeAggState.countAt (st : TypeAggState) (k : String) : ℕ :=
  match st.data k with
  | some a => a.orderCount
  | none => 0

/-- JS `Set.add` on a list kept duplicate-free. -/
def setAdd (l : List String) (x : String) : List String :=
  if l.contains x then l else l ++ [x]

/-- One line-item iteration of the product-type aggregation: every item lands
in the bucket of its (possibly empty) product type; `orderCount` bumps only
once per order per type. -/
def processTypeItem (orderId : String) (st : TypeAggState) (li : LineItem) :
    TypeAggState :=
  let productType := jsOrStr (li.product.map (·.productType)) ""
  let e := (st.data productType).getD ⟨0, 0, 0, []⟩
  let withProd : List String :=
    match li.product with
    | some p => if p.id = "" then e.products else setAdd e.products p.id
    | none => e.products
  let base : TypeAcc :=
    { e with
      grossRevenue := e.grossRevenue + li.originalTotal
      discounts := e.discounts + li.discountTotal
      products := withProd }
  if st.counted productType orderId then
    { st with data := fun k => if k = productType then some base else st.data k }
  else
    { data := fun k =>
        if k = productType then some { base with orderCount := base.orderCount + 1 }
        else st.data k
      counted := fun k oid =>
        if k = productType ∧ oid = orderId then true else st.counted k oid }

/-- Processing one order of the product-type aggregation. -/
def processTypeOrder (st : TypeAggState) (o : Order) : TypeAggState :=
  o.lineItems.foldl (processTypeItem o.id) st

/-- The product-type key this line item lands in. -/
def typeKeyOf (li : LineItem) : String :=
  jsOrStr (li.product.map (·.productType)) ""

/-! ### Default cost assumptions (`app/lib/constants.ts`, lines 44-49) -/

structure CostSettings where
  productCostPercent : ℚ
  shippingCostPerOrder : ℚ
  transactionFeePercent : ℚ
  transactionFeeFlat : ℚ
  deriving DecidableEq, Inhabited

def DEFAULT_COST_SETTINGS : CostSettings := ⟨40, 5, 2.9, 0.30⟩

/-! ### Report rows derived from the aggregates -/

structure ReportRow where
  grossRevenue : ℚ
  discounts : ℚ
  netRevenue : ℚ
  cogs : ℚ
  grossProfit : ℚ
  fulfillmentCost : ℚ
  cm2 : ℚ
  deriving DecidableEq, Inhabited

/-- One row of the `profitByProduct` report (source lines 1091-1112): 40% COGS
of net revenue, $5 shipping and $0.30 fee per order, 2.9% of net revenue. -/
def productReportRow (d : ProdAcc) : ReportRow :=
  let netRevenue := d.grossRevenue - d.discounts
  let cogs := netRevenue * 0.4
  let grossProfit := netRevenue - cogs
  let fulfillmentCost :=
    (d.orderCount : ℚ) * 5 + netRevenue * 0.029 + (d.orderCount : ℚ) * 0.30
  { grossRevenue := round2 d.grossRevenue
    discounts := round2 d.discounts
    netRevenue := round2 netRevenue
    cogs := round2 cogs
    grossProfit := round2 grossProfit
    fulfillmentCost := round2 fulfillmentCost
    cm2 := round2 (grossProfit - fulfillmentCost) }

/-- One row of the `profitByProductType` report (source lines 1194-1218). -/
def typeReportRow (d : TypeAcc) : ReportRow :=
  let netRevenue := d.grossRevenue - d.discounts
  let cogs := netRevenue * 0.4
  let grossProfit := netRevenue - cogs
  let fulfillmentCost :=
    (d.orderCount : ℚ) * 5 + netRevenue * 0.029 + (d.orderCount : ℚ) * 0.30
  { grossRevenue := round2 d.grossRevenue
    discounts := round2 d.discounts
    netRevenue := round2 netRevenue
    cogs := round2 cogs
    grossProfit := round2 grossProfit
    fulfillmentCost := round2 fulfillmentCost
    cm2 := round2 (grossProfit - fulfillmentCost) }

/-! ### Profit-by-SKU aggregation and report (source lines 1273-1317) -/

structure SkuAcc where
  sku : String
  title : String
  grossRevenue : ℚ
  discounts : ℚ
  quantity : ℕ
  deriving DecidableEq, Inhabited

/-- One line-item iteration of the SKU aggregation. -/
def skuStepItem (m : List (String × SkuAcc)) (li : LineItem) :
    List (String × SkuAcc) :=
  let sku := jsOrStr li.sku ""
  let productTitle := jsOrStr (li.product.map (·.title)) (jsOrStr li.title "Unknown")
  let fullTitle :=
    productTitle ++ (match li.variantTitle with
      | some v => if v.isEmpty then "" else " - " ++ v
      | none => "")
  let e := (mapGet m sku).getD ⟨sku, fullTitle, 0, 0, 0⟩
  mapSet m sku
    { e with
      grossRevenue := e.grossRevenue + li.originalTotal
      discounts := e.discounts + li.discountTotal
      quantity := e.quantity + li.quantity }

/-- The SKU aggregation over the fetched order list. -/
def skuAgg (os : List Order) : List (String × SkuAcc) :=
  os.foldl (fun m o => o.lineItems.foldl skuStepItem m) []

structure SkuRow where
  sku : String
  grossRevenue : ℚ
  discounts : ℚ
  netRevenue : ℚ
  cogs : ℚ
  grossProfit : ℚ
  fulfillmentCost : ℚ
  cm2 : ℚ
  quantity : ℕ
  deriving DecidableEq, Inhabited

/-- One row of the `profitBySKU` report (source lines 1294-1316): the
fulfillment estimate here is $2 per item of quantity. -/
def skuReportRow (d : SkuAcc) : SkuRow :=
  let netRevenue := d.grossRevenue - d.discounts
  let cogs := netRevenue * 0.4
  let grossProfit := netRevenue - cogs
  let fulfillmentCost : ℚ := (d.quantity : ℚ) * 2
  { sku := d.sku
    grossRevenue := round2 d.grossRevenue
    discounts := round2 d.discounts
    netRevenue := round2 netRevenue
    cogs := round2 cogs
    grossProfit := round2 grossProfit
    fulfillmentCost := round2 fulfillmentCost
    cm2 := round2 (grossProfit - fulfillmentCost)
    quantity := d.quantity }

/-! ### Shipping-cost cascade (source lines 3086-3130) -/

/-- `orderId.replace(/^#/, '')`: remove one leading `#` when present. -/
def stripHash (s : String) : String :=
  match s.data with
  | '#' :: rest => ⟨rest⟩
  | _ => s

/-- The code's key normalization: strip a leading `#`, then `trim`. -/
def normalizeOrderKey (s : String) : String := jsTrim (stripHash s)

/-- One uploaded shipping-cost override entry. -/
structure ShippingCostEntry where
  orderId : String
  orderName : String
  shippingCost : ℚ
  deriving DecidableEq, Inhabited

/-- `csvShippingCostMap`: each entry is stored under its original key, its
normalized key, and the normalized key with a `#` prepended. -/
def buildCsvMap (entries : List ShippingCostEntry) : List (String × ℚ) :=
  entries.foldl
    (fun m e =>
      let m1 := mapSet m e.orderId e.shippingCost
      let n := normalizeOrderKey e.orderId
      mapSet (mapSet m1 n e.shippingCost) ("#" ++ n) e.shippingCost)
    []

/-- The configured shipping estimate method. -/
inductive ShipMethod where
  | flat
  | perItem
  | noEstimate
  deriving DecidableEq, Inhabited

structure ShippingSettings where
  method : ShipMethod
  flatRate : ℚ
  perItemRate : ℚ
  deriving DecidableEq, Inhabited

/-- One already-serialized row of the `profitByOrder` action payload
(source lines 964-993), the input to the enrichment pass. -/
structure OrderRow where
  orderId : String
  orderName : String
  grossSales : ℚ
  discounts : ℚ
  shippingRevenue : ℚ
  itemCount : ℕ
  paymentGateway : Option String
  shippingLineCost : Option ℚ
  deriving DecidableEq, Inhabited

/-- `order.itemCount || 1` (a zero item count falls back to 1). -/
def jsItemCountOr1 (n : ℕ) : ℕ := if n = 0 then 1 else n

/-- `getShippingCost`: the three-tier cascade — shipping-label cost when
present and positive, then the CSV override under any of three key formats,
then the configured flat / per-item estimate, else zero. -/
def getShippingCost (ss : ShippingSettings) (csvMap : List (String × ℚ))
    (o : OrderRow) : ℚ × String :=
  let viaCsv : ℚ × String :=
    let orderName := o.orderName
    let m := normalizeOrderKey orderName
    let csvCost :=
      jsOrQ (jsOrQ (mapGet csvMap orderName) (mapGet csvMap m))
        (mapGet csvMap ("#" ++ m))
    match csvCost with
    | some c => (c, "csv")
    | none =>
      match ss.method with
      | ShipMethod.flat => (ss.flatRate, "estimate")
      | ShipMethod.perItem => (ss.perItemRate * (jsItemCountOr1 o.itemCount : ℚ), "estimate")
      | ShipMethod.noEstimate => (0, "none")
  match o.shippingLineCost with
  | some v => if v > 0 then (v, "shopify") else viaCsv
  | none => viaCsv

/-! ### Transaction-fee resolution (source lines 3133-3168) -/

structure GatewayFee where
  rate : ℚ
  fixedFee : ℚ
  deriving DecidableEq, Inhabited

structure ToggleGatewayFee where
  rate : ℚ
  fixedFee : ℚ
  enabled : Bool
  deriving DecidableEq, Inhabited

structure AddedGateway where
  id : String
  name : String
  apiName : String
  rate : ℚ
  fixedFee : ℚ
  deriving DecidableEq, Inhabited

structure TransactionFeeSettings where
  shopifyPayments : GatewayFee
  paypal : ToggleGatewayFee
  stripe : ToggleGatewayFee
  shopifySurcharge : ℚ
  usesShopifyPayments : Bool
  additionalGateways : List AddedGateway
  deriving DecidableEq, Inhabited

/-- `getTransactionFees`: case-insensitive substring match of the gateway name
against PayPal / Stripe / Shopify Payments / the merchant-added gateways, with
the Shopify Payments table as the default; a third-party surcharge applies
outside Shopify's own processor.  Fee is `netRevenue * (rate+surcharge)/100 +
fixedFee`. -/
def getTransactionFees (tf : TransactionFeeSettings) (netRevenue : ℚ)
    (gateway : Option String) : ℚ :=
  let gl := lowerStr (gateway.getD "")
  let rfs : ℚ × ℚ × ℚ :=
    if strIncludes gl "paypal" && tf.paypal.enabled then
      (tf.paypal.rate, tf.paypal.fixedFee,
        if tf.usesShopifyPayments then 0 else tf.shopifySurcharge)
    else if strIncludes gl "stripe" && tf.stripe.enabled then
      (tf.stripe.rate, tf.stripe.fixedFee, tf.shopifySurcharge)
    else if strIncludes gl "shopify" || strIncludes gl "shop_pay" then
      (tf.shopifyPayments.rate, tf.shopifyPayments.fixedFee, 0)
    else
      match tf.additionalGateways.find? (fun g => strIncludes gl (lowerStr g.apiName)) with
      | some g => (g.rate, g.fixedFee, tf.shopifySurcharge)
      | none => (tf.shopifyPayments.rate, tf.shopifyPayments.fixedFee, 0)
  netRevenue * ((rfs.1 + rfs.2.2) / 100) + rfs.2.1

/-! ### Profit-by-order enrichment (source lines 3170-3198) -/

structure EnrichedOrderRow where
  grossRevenue : ℚ
  discounts : ℚ
  netRevenue : ℚ
  cogs : ℚ
  grossProfit : ℚ
  shippingCost : ℚ
  shippingSource : String
  transactionFees : ℚ
  fulfillmentCost : ℚ
  cm2 : ℚ
  margin : ℚ
  deriving DecidableEq, Inhabited

/-- The per-order enrichment: 40% COGS of net revenue, cascading shipping
cost, configured transaction fees, and a margin guarded against a
non-positive net revenue. -/
def orderEnrich (ss : ShippingSettings) (csvMap : List (String × ℚ))
    (tf : TransactionFeeSettings) (o : OrderRow) : EnrichedOrderRow :=
  let grossRevenue := o.grossSales + o.shippingRevenue
  let netRevenue := grossRevenue - o.discounts
  let cogs := netRevenue * (40 / 100)
  let grossProfit := netRevenue - cogs
  let sc := getShippingCost ss csvMap o
  let transactionFees := getTransactionFees tf netRevenue o.paymentGateway
  let fulfillmentCost := sc.1 + transactionFees
  let cm2 := grossProfit - fulfillmentCost
  { grossRevenue := grossRevenue
    discounts := o.discounts
    netRevenue := netRevenue
    cogs := cogs
    grossProfit := grossProfit
    shippingCost := sc.1
    shippingSource := sc.2
    transactionFees := transactionFees
    fulfillmentCost := fulfillmentCost
    cm2 := cm2
    margin := if netRevenue > 0 then cm2 / netRevenue * 100 else 0 }

/-- The per-order totals row (source lines 3189-3197). -/
structure OrderTotals where
  grossRevenue : ℚ
  discounts : ℚ
  netRevenue : ℚ
  cogs : ℚ
  grossProfit : ℚ
  fulfillmentCost : ℚ
  cm2 : ℚ
  deriving DecidableEq, Inhabited

def orderTotalsOf (rows : List EnrichedOrderRow) : OrderTotals :=
  rows.foldl
    (fun acc o =>
      { grossRevenue := acc.grossRevenue + o.grossRevenue
        discounts := acc.discounts + o.discounts
        netRevenue := acc.netRevenue + o.netRevenue
        cogs := acc.cogs + o.cogs
        grossProfit := acc.grossProfit + o.grossProfit
        fulfillmentCost := acc.fulfillmentCost + o.fulfillmentCost
        cm2 := acc.cm2 + o.cm2 })
    ⟨0, 0, 0, 0, 0, 0, 0⟩

/-- `totalMargin` of the per-order report (source line 3198). -/
def orderTotalMargin (rows : List EnrichedOrderRow) : ℚ :=
  let t := orderTotalsOf rows
  if t.netRevenue > 0 then t.cm2 / t.netRevenue * 100 else 0

/-! ### Profit-by-channel enrichment (ProfitByChannelReport, lines 38-59) -/

/-- One channel row of the `profitByChannel` action payload. -/
structure ChannelRow where
  channel : String
  grossRevenue : ℚ
  discounts : ℚ
  orderCount : ℕ
  deriving DecidableEq, Inhabited

structure EnrichedChannelRow where
  channel : String
  grossRevenue : ℚ
  discounts : ℚ
  netRevenue : ℚ
  cogs : ℚ
  grossProfit : ℚ
  fulfillmentCost : ℚ
  cm2 : ℚ
  margin : ℚ
  orderCount : ℕ
  deriving DecidableEq, Inhabited

/-- The channel enrichment: 40% COGS of net revenue, $5 shipping per order,
2.9% + $0.30-per-order fees, margin guarded at non-positive net revenue. -/
def channelEnrich (c : ChannelRow) : EnrichedChannelRow :=
  let netRevenue := c.grossRevenue - c.discounts
  let cogs := netRevenue * (40 / 100)
  let grossProfit := netRevenue - cogs
  let shippingCost := (c.orderCount : ℚ) * 5
  let transactionFees := netRevenue * (2.9 / 100) + (c.orderCount : ℚ) * 0.30
  let fulfillmentCost := shippingCost + transactionFees
  let cm2 := grossProfit - fulfillmentCost
  { channel := c.channel
    grossRevenue := c.grossRevenue
    discounts := c.discounts
    netRevenue := netRevenue
    cogs := cogs
    grossProfit := grossProfit
    fulfillmentCost := fulfillmentCost
    cm2 := cm2
    margin := if netRevenue > 0 then cm2 / netRevenue * 100 else 0
    orderCount := c.orderCount }

structure ChannelTotals where
  grossRevenue : ℚ
  discounts : ℚ
  netRevenue : ℚ
  cogs : ℚ
  grossProfit : ℚ
  fulfillmentCost : ℚ
  cm2 : ℚ
  deriving DecidableEq, Inhabited

def channelTotalsOf (rows : List EnrichedChannelRow) : ChannelTotals :=
  rows.foldl
    (fun acc c =>
      { grossRevenue := acc.grossRevenue + c.grossRevenue
        discounts := acc.discounts + c.discounts
        netRevenue := acc.netRevenue + c.netRevenue
        cogs := acc.cogs + c.cogs
        grossProfit := acc.grossProfit + c.grossProfit
        fulfillmentCost := acc.fulfillmentCost + c.fulfillmentCost
        cm2 := acc.cm2 + c.cm2 })
    ⟨0, 0, 0, 0, 0, 0, 0⟩

/-- `totalMargin` of the channel report. -/
def channelTotalMargin (rows : List EnrichedChannelRow) : ℚ :=
  let t := channelTotalsOf rows
  if t.netRevenue > 0 then t.cm2 / t.netRevenue * 100 else 0

/-! ### Customer spend, LTV buckets and first orders (lines 469-527) -/

/-- The key the LTV spend loop uses: `order.customer?.id || "guest"`. -/
def custSpendKey (o : Order) : String := jsOrStr o.customerId "guest"

/-- One iteration of the customer-spend loop. -/
def spendStep (m : List (String × ℚ)) (o : Order) : List (String × ℚ) :=
  let cid := custSpendKey o
  mapSet m cid ((mapGet m cid).getD 0 + o.totalPrice)

/-- The `customerSpend` map over the fetched order list. -/
def customerSpend (os : List Order) : List (String × ℚ) :=
  os.foldl spendStep []

structure LTVBucket where
  range : String
  count : ℕ
  lo : ℚ
  hi : Option ℚ
  deriving DecidableEq, Inhabited

/-- The fixed LTV ranges (`hi = none` stands for Infinity). -/
def ltvBucketsInit : List LTVBucket :=
  [⟨"$0-25", 0, 0, some 25⟩, ⟨"$25-50", 0, 25, some 50⟩,
   ⟨"$50-100", 0, 50, some 100⟩, ⟨"$100-200", 0, 100, some 200⟩,
   ⟨"$200-500", 0, 200, some 500⟩, ⟨"$500-1K", 0, 500, some 1000⟩,
   ⟨"$1K+", 0, 1000, none⟩]

/-- `spend >= bucket.min && spend < bucket.max`. -/
def ltvHit (spend : ℚ) (b : LTVBucket) : Bool :=
  decide (b.lo ≤ spend) &&
    (match b.hi with
     | some mx => decide (spend < mx)
     | none => true)

/-- Bump the first bucket matching this spend (the loop `break`s). -/
def bumpBucket (spend : ℚ) : List LTVBucket → List LTVBucket
  | [] => []
  | b :: bs =>
      if ltvHit spend b then { b with count := b.count + 1 } :: bs
      else b :: bumpBucket spend bs

/-- The populated LTV buckets for an order list: one bump per entry of the
customer-spend map. -/
def ltvCounts (os : List Order) : List LTVBucket :=
  (customerSpend os).foldl (fun bs p => bumpBucket p.2 bs) ltvBucketsInit

/-- The first-order entry tracked per customer. -/
structure FOEntry where
  week : ℤ
  date : String
  discount : ℚ
  deriving DecidableEq, Inhabited

/-- The key the first-order loop uses: `customer?.id || "guest-" + order.id`,
a singleton pseudo-customer per guest order. -/
def custFirstKey (o : Order) : String :=
  jsOrStr o.customerId ("guest-" ++ o.id)

/-- One iteration of the `customerFirstOrder` loop (keep the earliest date). -/
def firstOrderStep (epochMs : ℤ) (m : List (String × FOEntry)) (o : Order) :
    List (String × FOEntry) :=
  let cid := custFirstKey o
  let dateStr := dayKeyOf o.createdIso
  let e : FOEntry := ⟨getWeekNumber o.createdMs epochMs, dateStr, o.totalDiscounts⟩
  match mapGet m cid with
  | none => mapSet m cid e
  | some ex => if dateStr < ex.date then mapSet m cid e else m

/-- The `customerFirstOrder` map over the fetched order list. -/
def customerFirstOrder (epochMs : ℤ) (os : List Order) :
    List (String × FOEntry) :=
  os.foldl (firstOrderStep epochMs) []

/-! ## Helper lemmas about the JS-map model -/

theorem mapGet_mapSet_self {α β : Type} [DecidableEq α]
    (l : List (α × β)) (k : α) (v : β) : mapGet (mapSet l k v) k = some v := by
  induction l with
  | nil => simp [mapSet, mapGet]
  | cons p rest ih =>
    obtain ⟨k', v'⟩ := p
    by_cases h : k = k' <;> simp [mapSet, mapGet, h, ih]

theorem mapGet_mapSet_ne {α β : Type} [DecidableEq α]
    (l : List (α × β)) (k k' : α) (v : β) (h : k' ≠ k) :
    mapGet (mapSet l k v) k' = mapGet l k' := by
  induction l with
  | nil => simp [mapSet, mapGet, h]
  | cons p rest ih =>
    obtain ⟨k₀, v₀⟩ := p
    by_cases hk : k = k₀
    · subst hk; simp [mapSet, mapGet, h]
    · by_cases hk' : k' = k₀ <;> simp [mapSet, mapGet, hk, hk', ih]

theorem mapGet_mapSet_cases {α β : Type} [DecidableEq α]
    (l : List (α × β)) (k k' : α) (v w : β)
    (h : mapGet (mapSet l k v) k' = some w) : w = v ∨ mapGet l k' = some w := by
  by_cases hk : k' = k
  · subst hk; rw [mapGet_mapSet_self] at h; exact Or.inl (Option.some_injective _ h).symm
  · rw [mapGet_mapSet_ne _ _ _ _ hk] at h; exact Or.inr h

theorem mapGet_mem {α β : Type} [DecidableEq α]
    (l : List (α × β)) (k : α) (v : β) (h : mapGet l k = some v) : (k, v) ∈ l := by
  induction l with
  | nil => simp [mapGet] at h
  | cons p rest ih =>
    obtain ⟨k₀, v₀⟩ := p
    by_cases hk : k = k₀
    · subst hk
      have hv : v₀ = v := by simpa [mapGet] using h
      rw [← hv]
      exact List.mem_cons_self _ _
    · simp only [mapGet, if_neg hk] at h
      exact List.mem_cons_of_mem _ (ih h)

/-! ## Evaluation lemmas for the rounding helpers -/

theorem jsRound_eq (x : ℚ) (n : ℤ) (h1 : (n : ℚ) ≤ x + 1/2)
    (h2 : x + 1/2 < (n : ℚ) + 1) : jsRound x = n := by
  unfold jsRound
  exact Int.floor_eq_iff.mpr ⟨h1, by exact_mod_cast h2⟩

theorem round2_eq (x : ℚ) (n : ℤ) (h1 : (n : ℚ) ≤ x * 100 + 1/2)
    (h2 : x * 100 + 1/2 < (n : ℚ) + 1) : round2 x = (n : ℚ) / 100 := by
  unfold round2
  rw [jsRound_eq (x * 100) n h1 h2]

theorem round1_eq (x : ℚ) (n : ℤ) (h1 : (n : ℚ) ≤ x * 10 + 1/2)
    (h2 : x * 10 + 1/2 < (n : ℚ) + 1) : round1 x = (n : ℚ) / 10 := by
  unfold round1
  rw [jsRound_eq (x * 10) n h1 h2]

/-- The weekly component of one dashboard step, isolated so that concrete runs
can be evaluated without reducing the string-keyed period maps. -/
theorem dashStep_weekly (epochMs : ℤ) (f : DashFilter) (st : DashState)
    (o : Order) :
    (dashStep epochMs f st o).weekly =
      if (dashOrderAmounts f o).gross > 0 ∨ (dashOrderAmounts f o).discounts > 0
      then bumpMap st.weekly (getWeekNumber o.createdMs epochMs) (dashOrderAmounts f o)
      else st.weekly := by
  unfold dashStep
  dsimp only
  split <;> rfl

theorem dashStep_totalShipping (epochMs : ℤ) (f : DashFilter) (st : DashState)
    (o : Order) :
    (dashStep epochMs f st o).totalShippingRevenue =
      if (dashOrderAmounts f o).gross > 0 ∨ (dashOrderAmounts f o).discounts > 0
      then st.totalShippingRevenue + (dashOrderAmounts f o).shipping
      else st.totalShippingRevenue := by
  unfold dashStep
  dsimp only
  split <;> rfl

/-! ## C10 — zero-value orders are dropped by the dashboard accumulation -/

/-- C10: an order whose computed gross revenue and discounts are both zero
leaves the entire dashboard accumulation state unchanged — no weekly, daily,
monthly or quarterly bucket is touched, no `orderCount` is incremented, and
its shipping revenue and item count are excluded from the report totals. -/
theorem c10_zero_order_dropped (epochMs : ℤ) (f : DashFilter) (st : DashState)
    (o : Order) (hg : (dashOrderAmounts f o).gross = 0)
    (hd : (dashOrderAmounts f o).discounts = 0) :
    dashStep epochMs f st o = st := by
  unfold dashStep
  rw [if_neg]
  rw [hg, hd]
  simp

def c10Order : Order :=
  { id := "gid10", name := "#1010", createdMs := 0,
    createdIso := "2025-01-03T09:00:00Z", customerId := none,
    channelName := none, totalPrice := 5, subtotal := 0, totalDiscounts := 0,
    totalShipping := 5, gatewayNames := ["shopify_payments"],
    lineItems := [⟨some ⟨"p9", "Freebie", "Gifts", []⟩, 2, none, none, none, 0, 0⟩] }

theorem c10_zero_order_dropped_witness :
    dashStep 0 ⟨none, none⟩ (initDash 2) c10Order = initDash 2 :=
  c10_zero_order_dropped 0 ⟨none, none⟩ (initDash 2) c10Order
    (by simp [dashOrderAmounts, c10Order])
    (by simp [dashOrderAmounts, c10Order])

/-! ## C8 — empty weeks are pre-seeded in the weekly chart -/

theorem mapGet_append_some {α β : Type} [DecidableEq α]
    (l₁ l₂ : List (α × β)) (k : α) (v : β) (h : mapGet l₁ k = some v) :
    mapGet (l₁ ++ l₂) k = some v := by
  induction l₁ with
  | nil => simp [mapGet] at h
  | cons p rest ih =>
    obtain ⟨k₀, v₀⟩ := p
    by_cases hk : k = k₀
    · simp only [mapGet, if_pos hk] at h ⊢
      exact h
    · simp only [mapGet, if_neg hk, List.cons_append] at h ⊢
      exact ih h

theorem mapGet_append_none {α β : Type} [DecidableEq α]
    (l₁ l₂ : List (α × β)) (k : α) (h : mapGet l₁ k = none) :
    mapGet (l₁ ++ l₂) k = mapGet l₂ k := by
  induction l₁ with
  | nil => rfl
  | cons p rest ih =>
    obtain ⟨k₀, v₀⟩ := p
    by_cases hk : k = k₀
    · simp only [mapGet, if_pos hk] at h
      exact Option.noConfusion h
    · simp only [mapGet, if_neg hk, List.cons_append] at h ⊢
      exact ih h

theorem mapGet_isSome_iff_mem {α β : Type} [DecidableEq α]
    (l : List (α × β)) (k : α) :
    (mapGet l k).isSome = true ↔ k ∈ l.map Prod.fst := by
  induction l with
  | nil => simp [mapGet]
  | cons p rest ih =>
    obtain ⟨k₀, v₀⟩ := p
    by_cases hk : k = k₀
    · simp [mapGet, hk]
    · simp only [mapGet, if_neg hk, List.map_cons, List.mem_cons]
      rw [ih]
      simp [hk]

theorem keys_mapSet_of_mem {α β : Type} [DecidableEq α]
    (l : List (α × β)) (k : α) (v : β) (h : k ∈ l.map Prod.fst) :
    (mapSet l k v).map Prod.fst = l.map Prod.fst := by
  induction l with
  | nil => simp at h
  | cons p rest ih =>
    obtain ⟨k₀, v₀⟩ := p
    by_cases hk : k = k₀
    · simp [mapSet, hk]
    · have hmem : k ∈ rest.map Prod.fst := by
        simp only [List.map_cons, List.mem_cons] at h
        rcases h with h0 | h0
        · exact absurd h0 hk
        · simpa using h0
      simp [mapSet, hk, ih hmem]

theorem seedWeekly_keys (W : ℕ) :
    (seedWeekly W).map Prod.fst = (List.range W).map (fun (i : ℕ) => (i : ℤ) + 1) := by
  unfold seedWeekly
  rw [List.map_map]
  rfl

theorem seedWeekly_get (W : ℕ) (w : ℤ) :
    mapGet (seedWeekly W) w =
      if 1 ≤ w ∧ w ≤ (W : ℤ) then some Acc.zero else none := by
  induction W with
  | zero =>
    rw [if_neg (by omega)]
    rfl
  | succ n ih =>
    have hseed : seedWeekly (n + 1) = seedWeekly n ++ [((n : ℤ) + 1, Acc.zero)] := by
      unfold seedWeekly
      rw [List.range_succ, List.map_append]
      rfl
    rw [hseed]
    by_cases hin : 1 ≤ w ∧ w ≤ (n : ℤ)
    · rw [mapGet_append_some _ _ _ _ (by rw [ih, if_pos hin]),
        if_pos ⟨hin.1, by push_cast; omega⟩]
    · rw [mapGet_append_none _ _ _ (by rw [ih, if_neg hin])]
      by_cases hw : w = (n : ℤ) + 1
      · rw [if_pos (by push_cast; omega)]
        simp [mapGet, hw]
      · rw [if_neg (by push_cast; omega)]
        simp [mapGet, hw]

theorem mem_seedKeys_iff (W : ℕ) (w : ℤ) :
    w ∈ (List.range W).map (fun (i : ℕ) => (i : ℤ) + 1) ↔ 1 ≤ w ∧ w ≤ (W : ℤ) := by
  simp only [List.mem_map, List.mem_range]
  constructor
  · rintro ⟨i, hi, rfl⟩
    omega
  · rintro ⟨h1, h2⟩
    refine ⟨(w - 1).toNat, by omega, by omega⟩

theorem dashStep_weekly_keys (epochMs : ℤ) (f : DashFilter) (W : ℕ)
    (st : DashState) (o : Order)
    (hin : 1 ≤ getWeekNumber o.createdMs epochMs ∧
      getWeekNumber o.createdMs epochMs ≤ (W : ℤ))
    (hkeys : st.weekly.map Prod.fst = (List.range W).map (fun (i : ℕ) => (i : ℤ) + 1)) :
    (dashStep epochMs f st o).weekly.map Prod.fst =
      (List.range W).map (fun (i : ℕ) => (i : ℤ) + 1) := by
  rw [dashStep_weekly]
  split
  · unfold bumpMap
    rw [keys_mapSet_of_mem _ _ _ (by rw [hkeys]; exact (mem_seedKeys_iff W _).mpr hin)]
    exact hkeys
  · exact hkeys

theorem dashRun_weekly_keys (epochMs : ℤ) (f : DashFilter) (W : ℕ)
    (os : List Order)
    (hin : ∀ o ∈ os, 1 ≤ getWeekNumber o.createdMs epochMs ∧
      getWeekNumber o.createdMs epochMs ≤ (W : ℤ)) :
    (dashRun epochMs f W os).weekly.map Prod.fst =
      (List.range W).map (fun (i : ℕ) => (i : ℤ) + 1) := by
  have hgen : ∀ (os' : List Order) (st : DashState),
      (∀ o ∈ os', 1 ≤ getWeekNumber o.createdMs epochMs ∧
        getWeekNumber o.createdMs epochMs ≤ (W : ℤ)) →
      st.weekly.map Prod.fst = (List.range W).map (fun (i : ℕ) => (i : ℤ) + 1) →
      (os'.foldl (dashStep epochMs f) st).weekly.map Prod.fst =
        (List.range W).map (fun (i : ℕ) => (i : ℤ) + 1) := by
    intro os'
    induction os' with
    | nil => exact fun st _ h => h
    | cons o rest ih =>
      intro st hin' hkeys
      rw [List.foldl_cons]
      exact ih _ (fun x hx => hin' x (List.mem_cons_of_mem _ hx))
        (dashStep_weekly_keys epochMs f W st o
          (hin' o (List.mem_cons_self _ _)) hkeys)
  exact hgen os (initDash W) hin (seedWeekly_keys W)

theorem dashStep_weekly_untouched (epochMs : ℤ) (f : DashFilter)
    (st : DashState) (o : Order) (w : ℤ)
    (hne : getWeekNumber o.createdMs epochMs ≠ w) :
    mapGet (dashStep epochMs f st o).weekly w = mapGet st.weekly w := by
  rw [dashStep_weekly]
  split
  · unfold bumpMap
    exact mapGet_mapSet_ne _ _ _ _ (fun h => hne h.symm)
  · rfl

theorem dashRun_weekly_untouched (epochMs : ℤ) (f : DashFilter) (W : ℕ)
    (os : List Order) (w : ℤ)
    (hne : ∀ o ∈ os, getWeekNumber o.createdMs epochMs ≠ w) :
    mapGet (dashRun epochMs f W os).weekly w = mapGet (seedWeekly W) w := by
  have hgen : ∀ (os' : List Order) (st : DashState),
      (∀ o ∈ os', getWeekNumber o.createdMs epochMs ≠ w) →
      mapGet (os'.foldl (dashStep epochMs f) st).weekly w = mapGet st.weekly w := by
    intro os'
    induction os' with
    | nil => exact fun st _ => rfl
    | cons o rest ih =>
      intro st hne'
      rw [List.foldl_cons, ih _ (fun x hx => hne' x (List.mem_cons_of_mem _ hx)),
        dashStep_weekly_untouched epochMs f st o w (hne' o (List.mem_cons_self _ _))]
  exact hgen os (initDash W) hne

theorem insertChartRow_of_le (r : ChartRow) (l : List ChartRow)
    (h : ∀ y ∈ l, r.week ≤ y.week) : insertChartRow r l = r :: l := by
  cases l with
  | nil => rfl
  | cons y ys =>
    unfold insertChartRow
    rw [if_pos (h y (List.mem_cons_self _ _))]

theorem sortChart_sorted_id (rows : List ChartRow)
    (h : rows.Pairwise (fun a b => a.week ≤ b.week)) : sortChart rows = rows := by
  induction rows with
  | nil => rfl
  | cons x xs ih =>
    unfold sortChart
    rw [ih h.of_cons, insertChartRow_of_le x xs (fun y hy => List.rel_of_pairwise_cons h hy)]

theorem chartRows_weeks (l : List (ℤ × Acc)) :
    (l.map chartRow).map (fun r => r.week) = l.map Prod.fst := by
  rw [List.map_map]
  exact List.map_congr_left (fun p _ => rfl)

theorem seedKeys_pairwise (W : ℕ) :
    ((List.range W).map (fun (i : ℕ) => (i : ℤ) + 1)).Pairwise (· ≤ ·) :=
  List.Pairwise.map _ (fun a b (hab : a < b) => by omega)
    (List.pairwise_lt_range W)

/-- C8: when every accumulated order falls in weeks 1..maxWeek (as every order
of a current-year-2025 dashboard range does), the weekly chart has exactly one
row per week number 1..maxWeek, in ascending order; a week touched by no order
still appears, with `orderCount = 0` and `grossRevenue = 0`, instead of being
a missing key. -/
theorem c8_empty_week_seeding (epochMs : ℤ) (f : DashFilter) (W : ℕ)
    (os : List Order)
    (hin : ∀ o ∈ os, 1 ≤ getWeekNumber o.createdMs epochMs ∧
      getWeekNumber o.createdMs epochMs ≤ (W : ℤ)) :
    ((chartData (dashRun epochMs f W os)).map (fun r => r.week) =
      (List.range W).map (fun (i : ℕ) => (i : ℤ) + 1))
    ∧ (∀ w : ℤ, 1 ≤ w → w ≤ (W : ℤ) →
        (∀ o ∈ os, getWeekNumber o.createdMs epochMs ≠ w) →
        ∃ r ∈ chartData (dashRun epochMs f W os),
          r.week = w ∧ r.orderCount = 0 ∧ r.grossRevenue = 0) := by
  have hkeys := dashRun_weekly_keys epochMs f W os hin
  have hweeks : (((dashRun epochMs f W os).weekly.map chartRow).map
      (fun r => r.week)) = (List.range W).map (fun (i : ℕ) => (i : ℤ) + 1) :=
    (chartRows_weeks _).trans hkeys
  have hpair : ((dashRun epochMs f W os).weekly.map chartRow).Pairwise
      (fun a b => a.week ≤ b.week) := by
    rw [← List.pairwise_map (f := fun r : ChartRow => r.week)]
    rw [hweeks]
    exact seedKeys_pairwise W
  have hchart : chartData (dashRun epochMs f W os) =
      (dashRun epochMs f W os).weekly.map chartRow := by
    unfold chartData
    exact sortChart_sorted_id _ hpair
  constructor
  · rw [hchart]
    exact hweeks
  · intro w h1 h2 hne
    have hget : mapGet (dashRun epochMs f W os).weekly w = some Acc.zero := by
      rw [dashRun_weekly_untouched epochMs f W os w hne, seedWeekly_get,
        if_pos ⟨h1, h2⟩]
    refine ⟨chartRow (w, Acc.zero), ?_, rfl, rfl, ?_⟩
    · rw [hchart]
      exact List.mem_map_of_mem _ (mapGet_mem _ _ _ hget)
    · show round2 (0 : ℚ) = 0
      rw [round2_eq 0 0 (by norm_num) (by norm_num)]
      norm_num

def c8Order : Order :=
  { id := "gid8", name := "#1008", createdMs := 604800000,
    createdIso := "2025-01-08T00:00:00Z", customerId := none, channelName := none,
    totalPrice := 50, subtotal := 50, totalDiscounts := 0, totalShipping := 0,
    gatewayNames := [], lineItems :=
      [⟨some ⟨"p8", "Widget", "Widgets", []⟩, 1, none, none, none, 50, 0⟩] }

theorem c8_empty_week_seeding_witness :
    ((chartData (dashRun 0 ⟨none, none⟩ 2 [c8Order])).map (fun r => r.week) =
      [1, 2])
    ∧ (∃ r ∈ chartData (dashRun 0 ⟨none, none⟩ 2 [c8Order]),
        r.week = 1 ∧ r.orderCount = 0 ∧ r.grossRevenue = 0) :=
  ⟨((c8_empty_week_seeding 0 ⟨none, none⟩ 2 [c8Order] (by decide)).1).trans
      (by decide),
   (c8_empty_week_seeding 0 ⟨none, none⟩ 2 [c8Order] (by decide)).2 1
      (by decide) (by decide) (by decide)⟩

/-! ## C9 — guest handling in the LTV and acquisition analyses -/

/-- The spend map accumulated over an order list, read at any key: the sum of
the totals of the orders whose spend key is that key (on top of the initial
map's entry). -/
theorem customerSpend_key (os : List Order) (k : String)
    (m : List (String × ℚ)) :
    (mapGet (os.foldl spendStep m) k).getD 0 =
      (mapGet m k).getD 0 +
        ((os.filter (fun o => custSpendKey o == k)).map (·.totalPrice)).sum := by
  induction os generalizing m with
  | nil => simp
  | cons o rest ih =>
    rw [List.foldl_cons, ih]
    by_cases hk : custSpendKey o = k
    · rw [List.filter_cons_of_pos (by simpa using hk)]
      unfold spendStep
      dsimp only
      rw [← hk, mapGet_mapSet_self]
      simp only [Option.getD_some, List.map_cons, List.sum_cons]
      ring
    · rw [List.filter_cons_of_neg (by simpa using hk)]
      unfold spendStep
      dsimp only
      rw [mapGet_mapSet_ne _ _ _ _ (fun h => hk h.symm)]

theorem firstOrderStep_isSome (epochMs : ℤ) (m : List (String × FOEntry))
    (o : Order) (k : String) (h : (mapGet m k).isSome = true) :
    (mapGet (firstOrderStep epochMs m o) k).isSome = true := by
  unfold firstOrderStep
  dsimp only
  cases hg : mapGet m (custFirstKey o) with
  | none =>
    by_cases hk : k = custFirstKey o
    · rw [hk, mapGet_mapSet_self]
      rfl
    · rw [mapGet_mapSet_ne _ _ _ _ hk]
      exact h
  | some ex =>
    dsimp only
    split
    · by_cases hk : k = custFirstKey o
      · rw [hk, mapGet_mapSet_self]
        rfl
      · rw [mapGet_mapSet_ne _ _ _ _ hk]
        exact h
    · exact h

theorem firstOrderStep_self (epochMs : ℤ) (m : List (String × FOEntry))
    (o : Order) :
    (mapGet (firstOrderStep epochMs m o) (custFirstKey o)).isSome = true := by
  unfold firstOrderStep
  dsimp only
  cases hg : mapGet m (custFirstKey o) with
  | none =>
    rw [mapGet_mapSet_self]
    rfl
  | some ex =>
    dsimp only
    split
    · rw [mapGet_mapSet_self]
      rfl
    · rw [hg]
      rfl

theorem firstOrderFold_isSome (epochMs : ℤ) (os : List Order)
    (m : List (String × FOEntry)) (k : String)
    (h : (mapGet m k).isSome = true) :
    (mapGet (os.foldl (firstOrderStep epochMs) m) k).isSome = true := by
  induction os generalizing m with
  | nil => exact h
  | cons o rest ih => exact ih _ (firstOrderStep_isSome epochMs m o k h)

theorem firstOrderFold_mem (epochMs : ℤ) (os : List Order)
    (m : List (String × FOEntry)) (o : Order) (hmem : o ∈ os) :
    (mapGet (os.foldl (firstOrderStep epochMs) m) (custFirstKey o)).isSome
      = true := by
  induction os generalizing m with
  | nil => simp at hmem
  | cons x rest ih =>
    rw [List.foldl_cons]
    rcases List.mem_cons.mp hmem with hx | hx
    · subst hx
      exact firstOrderFold_isSome epochMs rest _ _
        (firstOrderStep_self epochMs m o)
    · exact ih _ hx

/-- C9 (amended): in the LTV spend analysis all guest orders are merged under
the single pseudo-customer key `"guest"` — the `"guest"` entry of the spend
map is the combined total of every guest order, which is then bucketed once.
Only the first-order acquisition analysis keys each guest order separately as
`"guest-" ++ orderId`: every order of the set, guest orders included, owns an
entry of the first-order map under its own key. -/
theorem c9_guest_handling_amended (epochMs : ℤ) (os : List Order) :
    ((mapGet (customerSpend os) "guest").getD 0 =
      ((os.filter (fun o => custSpendKey o == "guest")).map (·.totalPrice)).sum)
    ∧ (∀ o ∈ os, (mapGet (customerFirstOrder epochMs os)
        (custFirstKey o)).isSome = true) := by
  constructor
  · have h := customerSpend_key os "guest" []
    simpa [mapGet] using h
  · intro o hmem
    exact firstOrderFold_mem epochMs os [] o hmem

def c9Guest1 : Order :=
  { id := "o1", name := "#2001", createdMs := 0,
    createdIso := "2025-01-08T09:00:00Z", customerId := none, channelName := none,
    totalPrice := 10, subtotal := 10, totalDiscounts := 0, totalShipping := 0,
    gatewayNames := [], lineItems := [] }

def c9Guest2 : Order :=
  { id := "o2", name := "#2002", createdMs := 0,
    createdIso := "2025-01-09T09:00:00Z", customerId := none, channelName := none,
    totalPrice := 30, subtotal := 30, totalDiscounts := 0, totalShipping := 0,
    gatewayNames := [], lineItems := [] }

/-- C9 counterexample: two guest orders of $10 and $30 are merged into the
single `"guest"` customer with a combined spend of $40; the `$0-25` bucket
stays at 0 (the claim demands 1 for the $10 order) and only one distinct
customer is counted over all buckets (the claim demands 2). -/
theorem c9_guest_singleton_counterexample :
    ((ltvCounts [c9Guest1, c9Guest2]).headD default).range = "$0-25" ∧
    ((ltvCounts [c9Guest1, c9Guest2]).headD default).count = 0 ∧
    ((ltvCounts [c9Guest1, c9Guest2]).map (·.count)).sum = 1 ∧
    (1 : ℕ) ≠ 2 := by
  have hspend : customerSpend [c9Guest1, c9Guest2] = [("guest", 40)] := by
    norm_num [customerSpend, spendStep, custSpendKey, jsOrStr, c9Guest1,
      c9Guest2, mapGet, mapSet]
  unfold ltvCounts
  rw [hspend]
  refine ⟨?_, ?_, ?_, by norm_num⟩ <;> decide

theorem c9_guest_handling_amended_witness :
    (mapGet (customerFirstOrder 0 [c9Guest1, c9Guest2])
      (custFirstKey c9Guest1)).isSome = true
    ∧ (mapGet (customerSpend [c9Guest1, c9Guest2]) "guest").getD 0 = 40 :=
  ⟨(c9_guest_handling_amended 0 [c9Guest1, c9Guest2]).2 c9Guest1
      (List.mem_cons_self _ _),
   ((c9_guest_handling_amended 0 [c9Guest1, c9Guest2]).1).trans
      (by norm_num [custSpendKey, jsOrStr, c9Guest1, c9Guest2])⟩

/-! ## C4 — shipping-cost cascade with order-name normalization -/

/-- Every value stored in the override map built from a single entry is that
entry's cost. -/
theorem buildCsvMap_singleton_val (e : ShippingCostEntry) (k : String) (w : ℚ)
    (h : mapGet (buildCsvMap [e]) k = some w) : w = e.shippingCost := by
  simp only [buildCsvMap, List.foldl] at h
  rcases mapGet_mapSet_cases _ _ _ _ _ h with h1 | h1
  · exact h1
  rcases mapGet_mapSet_cases _ _ _ _ _ h1 with h2 | h2
  · exact h2
  rcases mapGet_mapSet_cases _ _ _ _ _ h2 with h3 | h3
  · exact h3
  · simp [mapGet] at h3

theorem ne_hash_append (n : String) : n ≠ "#" ++ n := by
  intro h
  have hlen := congrArg String.length h
  rw [String.length_append] at hlen
  have h1 : ("#" : String).length = 1 := by decide
  omega

/-- C4: for an order whose shipping-label cost is absent or not positive, a
single uploaded override whose key equals the order's display name up to one
optional leading `#` on either side (both sides free of surrounding
whitespace) is found, and its cost is returned tagged `"csv"` — whatever
flat/per-item estimate is configured. -/
theorem c4_shipping_cascade (ss : ShippingSettings) (e : ShippingCostEntry)
    (o : OrderRow)
    (hlabel : ∀ v, o.shippingLineCost = some v → ¬ v > 0)
    (hkey : stripHash e.orderId = stripHash o.orderName)
    (ht1 : jsTrim (stripHash e.orderId) = stripHash e.orderId)
    (ht2 : jsTrim (stripHash o.orderName) = stripHash o.orderName) :
    getShippingCost ss (buildCsvMap [e]) o = (e.shippingCost, "csv") := by
  have hm : normalizeOrderKey o.orderName = normalizeOrderKey e.orderId := by
    unfold normalizeOrderKey
    rw [ht1, ht2, hkey]
  have hmap : buildCsvMap [e] =
      mapSet (mapSet (mapSet [] e.orderId e.shippingCost)
        (normalizeOrderKey e.orderId) e.shippingCost)
        ("#" ++ normalizeOrderKey e.orderId) e.shippingCost := rfl
  have hget_n : mapGet (buildCsvMap [e]) (normalizeOrderKey e.orderId) =
      some e.shippingCost := by
    rw [hmap, mapGet_mapSet_ne _ _ _ _ (ne_hash_append _), mapGet_mapSet_self]
  have hget_hash : mapGet (buildCsvMap [e]) ("#" ++ normalizeOrderKey e.orderId) =
      some e.shippingCost := by
    rw [hmap, mapGet_mapSet_self]
  have hchain : jsOrQ (jsOrQ (mapGet (buildCsvMap [e]) o.orderName)
      (mapGet (buildCsvMap [e]) (normalizeOrderKey o.orderName)))
      (mapGet (buildCsvMap [e]) ("#" ++ normalizeOrderKey o.orderName)) =
      some e.shippingCost := by
    rw [hm, hget_n, hget_hash]
    cases hv : mapGet (buildCsvMap [e]) o.orderName with
    | none => simp [jsOrQ]
    | some x =>
      have hx := buildCsvMap_singleton_val e _ _ hv
      by_cases hx0 : x = 0
      · simp [jsOrQ, hx0]
      · simp [jsOrQ, hx0, hx]
  unfold getShippingCost
  cases hsl : o.shippingLineCost with
  | none =>
    dsimp only
    rw [hchain]
  | some v =>
    dsimp only
    rw [if_neg (hlabel v hsl), hchain]

def c4Entry : ShippingCostEntry := ⟨"1007", "1007", 12.5⟩

def c4Order : OrderRow := ⟨"gid7", "#1007", 100, 0, 0, 2, some "manual", none⟩

theorem c4_shipping_cascade_witness :
    getShippingCost ⟨ShipMethod.flat, 7, 0⟩ (buildCsvMap [c4Entry]) c4Order =
      (12.5, "csv") :=
  c4_shipping_cascade ⟨ShipMethod.flat, 7, 0⟩ c4Entry c4Order
    (fun v hv => by simp [c4Order] at hv) (by decide) (by decide) (by decide)

/-! ## C3 — order-count uniqueness per dimension key -/

theorem countAt_getD (st : ProductAggState) (k : String) (t : String)
    (pt : String) (tg : List String) :
    ((st.data k).getD ⟨t, pt, tg, 0, 0, 0, 0⟩).orderCount = st.countAt k := by
  unfold ProductAggState.countAt
  cases st.data k <;> rfl

theorem prodState_countAt_update (st : ProductAggState) (k pid : String)
    (a : ProdAcc) (c2 : String → String → Bool) :
    (ProductAggState.mk (fun k' => if k' = pid then some a else st.data k')
        c2).countAt k = if k = pid then a.orderCount else st.countAt k := by
  unfold ProductAggState.countAt
  dsimp only
  by_cases hk : k = pid <;> simp [hk]

/-- What one line-item iteration does to a product key's order count and to
its already-counted flag for the order being processed. -/
theorem processProductItem_spec (fpt ftag : Option String) (oid k : String)
    (st : ProductAggState) (li : LineItem) :
    (processProductItem fpt ftag oid st li).countAt k =
      (if hitsProduct fpt ftag k li = true ∧ st.counted k oid = false
       then st.countAt k + 1 else st.countAt k)
    ∧ (processProductItem fpt ftag oid st li).counted k oid =
      (st.counted k oid || hitsProduct fpt ftag k li) := by
  by_cases h1 : (match fpt with
      | some fl => jsOrStr (li.product.map (·.productType)) "" != fl
      | none => false) = true
  · have hh : hitsProduct fpt ftag k li = false := by
      unfold hitsProduct
      rw [h1]
      rfl
    have hstep : processProductItem fpt ftag oid st li = st := by
      unfold processProductItem
      rw [if_pos h1]
    rw [hstep, hh]
    simp
  · have h1f := Bool.eq_false_iff.mpr h1
    by_cases h2 : (match ftag with
        | some t => ! ((li.product.map (·.tags)).getD []).contains t
        | none => false) = true
    · have hh : hitsProduct fpt ftag k li = false := by
        unfold hitsProduct
        rw [h1f, h2]
        rfl
      have hstep : processProductItem fpt ftag oid st li = st := by
        unfold processProductItem
        rw [if_neg h1, if_pos h2]
      rw [hstep, hh]
      simp
    · have h2f := Bool.eq_false_iff.mpr h2
      cases hp : li.product with
      | none =>
        have hh : hitsProduct fpt ftag k li = false := by
          unfold hitsProduct
          rw [h1f, h2f, hp]
          rfl
        have hstep : processProductItem fpt ftag oid st li = st := by
          unfold processProductItem
          rw [if_neg h1, if_neg h2, hp]
        rw [hstep, hh]
        simp
      | some p =>
        have hh : hitsProduct fpt ftag k li = ((p.id == k) && !(p.id == "")) := by
          unfold hitsProduct
          rw [h1f, h2f, hp]
          rfl
        by_cases hid : p.id = ""
        · have hh0 : hitsProduct fpt ftag k li = false := by
            rw [hh, hid]
            simp
          have hstep : processProductItem fpt ftag oid st li = st := by
            unfold processProductItem
            rw [if_neg h1, if_neg h2, hp]
            dsimp only
            rw [if_pos hid]
          rw [hstep, hh0]
          simp
        · rw [hh]
          unfold processProductItem
          rw [if_neg h1, if_neg h2, hp]
          dsimp only
          rw [if_neg hid]
          by_cases hcnt : st.counted p.id oid = true
          · rw [if_pos hcnt]
            rw [prodState_countAt_update]
            by_cases hk : k = p.id
            · rw [hk]
              refine ⟨?_, ?_⟩
              · rw [if_pos rfl, if_neg (by simp [hcnt])]
                dsimp only
                rw [countAt_getD st p.id]
              · simp [hcnt]
            · refine ⟨?_, ?_⟩
              · rw [if_neg hk, if_neg (by
                  rintro ⟨ha, -⟩
                  exact hk ((by simpa using ha : p.id = k ∧ ¬ p.id = "").1).symm)]
              · have hbk : (p.id == k) = false := by
                  simpa using fun h => hk h.symm
                simp [hbk]
          · rw [if_neg hcnt]
            have hcf := Bool.eq_false_iff.mpr hcnt
            rw [prodState_countAt_update]
            by_cases hk : k = p.id
            · rw [hk]
              refine ⟨?_, ?_⟩
              · rw [if_pos rfl, if_pos ⟨by simp [hid], hcf⟩]
                dsimp only
                rw [countAt_getD st p.id]
              · show (if p.id = p.id ∧ oid = oid then true
                    else st.counted p.id oid) = _
                rw [if_pos ⟨rfl, rfl⟩]
                simp [hcf, hid]
            · refine ⟨?_, ?_⟩
              · rw [if_neg hk, if_neg (by
                  rintro ⟨ha, -⟩
                  exact hk ((by simpa using ha : p.id = k ∧ ¬ p.id = "").1).symm)]
              · show (if k = p.id ∧ oid = oid then true
                    else st.counted k oid) = _
                rw [if_neg (fun hc => hk hc.1)]
                have hbk : (p.id == k) = false := by
                  simpa using fun h => hk h.symm
                simp [hbk]

theorem prodFold_countAt_le (fpt ftag : Option String) (oid k : String)
    (items : List LineItem) (st : ProductAggState) :
    ((items.foldl (processProductItem fpt ftag oid) st).countAt k
        + (if (items.foldl (processProductItem fpt ftag oid) st).counted k oid
            then 0 else 1))
      = st.countAt k + (if st.counted k oid then 0 else 1) := by
  induction items generalizing st with
  | nil => rfl
  | cons li rest ih =>
    rw [List.foldl_cons, ih]
    obtain ⟨hca, hcc⟩ := processProductItem_spec fpt ftag oid k st li
    rw [hca, hcc]
    by_cases hcnt : st.counted k oid = true <;>
      by_cases hhit : hitsProduct fpt ftag k li = true <;>
        simp [hcnt, hhit]

theorem prodFold_counted_mono (fpt ftag : Option String) (oid k : String)
    (items : List LineItem) (st : ProductAggState)
    (h : st.counted k oid = true) :
    (items.foldl (processProductItem fpt ftag oid) st).counted k oid = true := by
  induction items generalizing st with
  | nil => exact h
  | cons li rest ih =>
    rw [List.foldl_cons]
    exact ih _ (by rw [(processProductItem_spec fpt ftag oid k st li).2, h]; rfl)

theorem prodFold_counted_hit (fpt ftag : Option String) (oid k : String)
    (items : List LineItem) (st : ProductAggState) (li : LineItem)
    (hmem : li ∈ items) (hhit : hitsProduct fpt ftag k li = true) :
    (items.foldl (processProductItem fpt ftag oid) st).counted k oid = true := by
  induction items generalizing st with
  | nil => simp at hmem
  | cons x rest ih =>
    rw [List.foldl_cons]
    rcases List.mem_cons.mp hmem with hx | hx
    · subst hx
      exact prodFold_counted_mono fpt ftag oid k rest _
        (by rw [(processProductItem_spec fpt ftag oid k st li).2, hhit]; simp)
    · exact ih _ hx

theorem countTypeAt_getD (st : TypeAggState) (k : String) :
    ((st.data k).getD ⟨0, 0, 0, []⟩).orderCount = st.countAt k := by
  unfold TypeAggState.countAt
  cases st.data k <;> rfl

theorem typeState_countAt_update (st : TypeAggState) (k pid : String)
    (a : TypeAcc) (c2 : String → String → Bool) :
    (TypeAggState.mk (fun k' => if k' = pid then some a else st.data k')
        c2).countAt k = if k = pid then a.orderCount else st.countAt k := by
  unfold TypeAggState.countAt
  dsimp only
  by_cases hk : k = pid <;> simp [hk]

/-- What one line-item iteration does to a product-type key's order count and
to its already-counted flag for the order being processed. -/
theorem processTypeItem_spec (oid k : String) (st : TypeAggState)
    (li : LineItem) :
    (processTypeItem oid st li).countAt k =
      (if typeKeyOf li = k ∧ st.counted k oid = false
       then st.countAt k + 1 else st.countAt k)
    ∧ (processTypeItem oid st li).counted k oid =
      (st.counted k oid || (typeKeyOf li == k)) := by
  unfold processTypeItem typeKeyOf
  dsimp only
  by_cases hcnt :
      st.counted (jsOrStr (li.product.map (·.productType)) "") oid = true
  · rw [if_pos hcnt]
    rw [typeState_countAt_update]
    by_cases hk : k = jsOrStr (li.product.map (·.productType)) ""
    · rw [hk]
      refine ⟨?_, ?_⟩
      · rw [if_pos rfl, if_neg (by simp [hcnt])]
        dsimp only
        rw [countTypeAt_getD]
      · simp [hcnt]
    · refine ⟨?_, ?_⟩
      · rw [if_neg hk, if_neg (fun hc => hk hc.1.symm)]
      · have hbk : (jsOrStr (li.product.map (·.productType)) "" == k) = false := by
          simpa using fun h => hk h.symm
        simp [hbk]
  · rw [if_neg hcnt]
    have hcf := Bool.eq_false_iff.mpr hcnt
    rw [typeState_countAt_update]
    by_cases hk : k = jsOrStr (li.product.map (·.productType)) ""
    · rw [hk]
      refine ⟨?_, ?_⟩
      · rw [if_pos rfl, if_pos ⟨rfl, hcf⟩]
        dsimp only
        rw [countTypeAt_getD]
      · show (if jsOrStr (li.product.map (·.productType)) "" =
              jsOrStr (li.product.map (·.productType)) "" ∧ oid = oid then true
            else _) = _
        rw [if_pos ⟨rfl, rfl⟩]
        simp [hcf]
    · refine ⟨?_, ?_⟩
      · rw [if_neg hk, if_neg (fun hc => hk hc.1.symm)]
      · show (if k = jsOrStr (li.product.map (·.productType)) "" ∧ oid = oid
            then true else st.counted k oid) = _
        rw [if_neg (fun hc => hk hc.1)]
        have hbk : (jsOrStr (li.product.map (·.productType)) "" == k) = false := by
          simpa using fun h => hk h.symm
        simp [hbk]

theorem typeFold_countAt_le (oid k : String) (items : List LineItem)
    (st : TypeAggState) :
    ((items.foldl (processTypeItem oid) st).countAt k
        + (if (items.foldl (processTypeItem oid) st).counted k oid
            then 0 else 1))
      = st.countAt k + (if st.counted k oid then 0 else 1) := by
  induction items generalizing st with
  | nil => rfl
  | cons li rest ih =>
    rw [List.foldl_cons, ih]
    obtain ⟨hca, hcc⟩ := processTypeItem_spec oid k st li
    rw [hca, hcc]
    by_cases hcnt : st.counted k oid = true <;>
      by_cases hhit : typeKeyOf li = k <;>
        simp [hcnt, hhit]

theorem typeFold_counted_mono (oid k : String) (items : List LineItem)
    (st : TypeAggState) (h : st.counted k oid = true) :
    (items.foldl (processTypeItem oid) st).counted k oid = true := by
  induction items generalizing st with
  | nil => exact h
  | cons li rest ih =>
    rw [List.foldl_cons]
    exact ih _ (by rw [(processTypeItem_spec oid k st li).2, h]; rfl)

theorem typeFold_counted_hit (oid k : String) (items : List LineItem)
    (st : TypeAggState) (li : LineItem) (hmem : li ∈ items)
    (hhit : typeKeyOf li = k) :
    (items.foldl (processTypeItem oid) st).counted k oid = true := by
  induction items generalizing st with
  | nil => simp at hmem
  | cons x rest ih =>
    rw [List.foldl_cons]
    rcases List.mem_cons.mp hmem with hx | hx
    · subst hx
      exact typeFold_counted_mono oid k rest _
        (by rw [(processTypeItem_spec oid k st li).2]; simp [hhit])
    · exact ih _ hx

/-- C3: in both the profit-by-product and the profit-by-product-type
aggregations, processing one order — whatever the current state — raises any
dimension key's `orderCount` by at most 1, and raises it by exactly 1 when the
order was not yet counted for that key and at least one of its line items
qualifies for it (so an order with three matching line items contributes 1,
never 3). -/
theorem c3_ordercount_uniqueness (fpt ftag : Option String)
    (stP : ProductAggState) (stT : TypeAggState) (o : Order) (k : String) :
    ((processProductOrder fpt ftag stP o).countAt k ≤ stP.countAt k + 1)
    ∧ (stP.counted k o.id = false →
        (∃ li ∈ o.lineItems, hitsProduct fpt ftag k li = true) →
        (processProductOrder fpt ftag stP o).countAt k = stP.countAt k + 1)
    ∧ ((processTypeOrder stT o).countAt k ≤ stT.countAt k + 1)
    ∧ (stT.counted k o.id = false →
        (∃ li ∈ o.lineItems, typeKeyOf li = k) →
        (processTypeOrder stT o).countAt k = stT.countAt k + 1) := by
  refine ⟨?_, ?_, ?_, ?_⟩
  · have h := prodFold_countAt_le fpt ftag o.id k o.lineItems stP
    unfold processProductOrder
    split_ifs at h <;> omega
  · intro hcnt ⟨li, hmem, hhit⟩
    have h := prodFold_countAt_le fpt ftag o.id k o.lineItems stP
    have hc := prodFold_counted_hit fpt ftag o.id k o.lineItems stP li hmem hhit
    unfold processProductOrder
    rw [hc, hcnt] at h
    simpa using h
  · have h := typeFold_countAt_le o.id k o.lineItems stT
    unfold processTypeOrder
    split_ifs at h <;> omega
  · intro hcnt ⟨li, hmem, hhit⟩
    have h := typeFold_countAt_le o.id k o.lineItems stT
    have hc := typeFold_counted_hit o.id k o.lineItems stT li hmem hhit
    unfold processTypeOrder
    rw [hc, hcnt] at h
    simpa using h

def emptyProductAgg : ProductAggState := ⟨fun _ => none, fun _ _ => false⟩

def emptyTypeAgg : TypeAggState := ⟨fun _ => none, fun _ _ => false⟩

def c3Item : LineItem :=
  ⟨some ⟨"p1", "Widget", "Widgets", []⟩, 1, none, none, none, 25, 0⟩

def c3Order : Order :=
  { id := "gid3", name := "#1003", createdMs := 0,
    createdIso := "2025-01-04T09:00:00Z", customerId := none, channelName := none,
    totalPrice := 75, subtotal := 75, totalDiscounts := 0, totalShipping := 0,
    gatewayNames := [], lineItems := [c3Item, c3Item, c3Item] }

theorem c3_ordercount_uniqueness_witness :
    (processProductOrder none none emptyProductAgg c3Order).countAt "p1" =
      emptyProductAgg.countAt "p1" + 1
    ∧ (processTypeOrder emptyTypeAgg c3Order).countAt "Widgets" =
      emptyTypeAgg.countAt "Widgets" + 1 :=
  ⟨(c3_ordercount_uniqueness none none emptyProductAgg emptyTypeAgg c3Order "p1").2.1
      rfl ⟨c3Item, by simp [c3Order], by decide⟩,
   (c3_ordercount_uniqueness none none emptyProductAgg emptyTypeAgg c3Order "Widgets").2.2.2
      rfl ⟨c3Item, by simp [c3Order], by decide⟩⟩

/-! ## C7 — percent-of-netRevenue fields are 0 when netRevenue is 0 -/

/-- C7: whenever a per-channel row, a per-order row, or either report's totals
row has a net revenue of zero, its percent-of-netRevenue field (`margin` /
`totalMargin`) is exactly 0; in this exact-rational model the guarded division
can never produce a NaN or infinite value. -/
theorem c7_zero_netrevenue_safety :
    (∀ c : ChannelRow, (channelEnrich c).netRevenue = 0 → (channelEnrich c).margin = 0)
    ∧ (∀ (ss : ShippingSettings) (csvMap : List (String × ℚ))
        (tf : TransactionFeeSettings) (o : OrderRow),
        (orderEnrich ss csvMap tf o).netRevenue = 0 →
        (orderEnrich ss csvMap tf o).margin = 0)
    ∧ (∀ rows : List EnrichedChannelRow,
        (channelTotalsOf rows).netRevenue = 0 → channelTotalMargin rows = 0)
    ∧ (∀ rows : List EnrichedOrderRow,
        (orderTotalsOf rows).netRevenue = 0 → orderTotalMargin rows = 0) := by
  refine ⟨?_, ?_, ?_, ?_⟩
  · intro c h
    simp only [channelEnrich] at h ⊢
    rw [if_neg (by rw [h]; exact lt_irrefl 0)]
  · intro ss csvMap tf o h
    simp only [orderEnrich] at h ⊢
    rw [if_neg (by rw [h]; exact lt_irrefl 0)]
  · intro rows h
    unfold channelTotalMargin
    rw [if_neg (by rw [h]; exact lt_irrefl 0)]
  · intro rows h
    unfold orderTotalMargin
    rw [if_neg (by rw [h]; exact lt_irrefl 0)]

def c7Channel : ChannelRow := ⟨"Online Store", 5, 5, 2⟩

def c7Order : OrderRow := ⟨"gid7", "#1007", 10, 10, 0, 1, some "manual", none⟩

def c7Fees : TransactionFeeSettings :=
  ⟨⟨2.9, 0.30⟩, ⟨3.49, 0.49, true⟩, ⟨2.9, 0.30, true⟩, 2, true, []⟩

theorem c7_zero_netrevenue_safety_witness :
    (channelEnrich c7Channel).margin = 0
    ∧ (orderEnrich ⟨ShipMethod.flat, 5, 0⟩ [] c7Fees c7Order).margin = 0
    ∧ channelTotalMargin [] = 0 ∧ orderTotalMargin [] = 0 :=
  ⟨c7_zero_netrevenue_safety.1 c7Channel (by norm_num [channelEnrich, c7Channel]),
   c7_zero_netrevenue_safety.2.1 ⟨ShipMethod.flat, 5, 0⟩ [] c7Fees c7Order
     (by norm_num [orderEnrich, c7Order]),
   c7_zero_netrevenue_safety.2.2.1 [] rfl,
   c7_zero_netrevenue_safety.2.2.2 [] rfl⟩

/-! ## C5 — unresolvable gateway names fall back to the default rate -/

/-- C5: when the lower-cased gateway name contains none of `paypal`, `stripe`,
`shopify`, `shop_pay`, nor the API name of any merchant-added gateway, the
transaction fee is exactly `netRevenue * shopifyPayments.rate / 100 +
shopifyPayments.fixedFee` — the default Shopify Payments table with no
surcharge; the computation is a total function and never errors. -/
theorem c5_gateway_fallback (tf : TransactionFeeSettings) (netRevenue : ℚ)
    (gateway : Option String)
    (h1 : strIncludes (lowerStr (gateway.getD "")) "paypal" = false)
    (h2 : strIncludes (lowerStr (gateway.getD "")) "stripe" = false)
    (h3 : strIncludes (lowerStr (gateway.getD "")) "shopify" = false)
    (h4 : strIncludes (lowerStr (gateway.getD "")) "shop_pay" = false)
    (h5 : ∀ g ∈ tf.additionalGateways,
        strIncludes (lowerStr (gateway.getD "")) (lowerStr g.apiName) = false) :
    getTransactionFees tf netRevenue gateway =
      netRevenue * (tf.shopifyPayments.rate / 100) + tf.shopifyPayments.fixedFee := by
  unfold getTransactionFees
  have hfind : tf.additionalGateways.find?
      (fun g => strIncludes (lowerStr (gateway.getD "")) (lowerStr g.apiName)) = none :=
    List.find?_eq_none.mpr (fun g hg => by simp [h5 g hg])
  simp only [h1, h2, h3, h4, hfind, Bool.false_and, Bool.false_or, if_neg,
    Bool.false_eq_true, not_false_eq_true]
  ring

def c5Fees : TransactionFeeSettings :=
  ⟨⟨2.9, 0.30⟩, ⟨3.49, 0.49, true⟩, ⟨2.9, 0.30, true⟩, 2, true,
   [⟨"square", "Square", "square", 2.6, 0.10⟩]⟩

theorem c5_gateway_fallback_witness :
    getTransactionFees c5Fees 100 (some "Bitcoin Gateway") = 3.2 :=
  (c5_gateway_fallback c5Fees 100 (some "Bitcoin Gateway") (by decide) (by decide)
    (by decide) (by decide) (by decide)).trans (by norm_num [c5Fees])

/-! ## C2 — discount proration across line items -/

/-- C2: for an order with a positive order-level discount and positive
subtotal whose line items all carry a zero line-level discount, the per-line
allocation assigns the full discount to a unique line item, prorates by
`originalTotal / (subtotal + discount)` across several, and — whenever the
original totals sum to `subtotal + discount` — the allocations sum exactly to
the order-level discount. -/
theorem c2_discount_proration (o : Order)
    (hD : 0 < o.totalDiscounts) (hS : 0 < o.subtotal)
    (hnoli : ∀ li ∈ o.lineItems, li.discountTotal = 0) :
    (o.lineItems.length = 1 → ∀ li ∈ o.lineItems, orderAlloc o li = o.totalDiscounts)
    ∧ (1 < o.lineItems.length → ∀ li ∈ o.lineItems,
        orderAlloc o li =
          o.totalDiscounts * (li.originalTotal / (o.subtotal + o.totalDiscounts)))
    ∧ ((o.lineItems.map (·.originalTotal)).sum = o.subtotal + o.totalDiscounts →
        (o.lineItems.map (orderAlloc o)).sum = o.totalDiscounts) := by
  have halloc : ∀ li ∈ o.lineItems, orderAlloc o li =
      if o.lineItems.length = 1 then o.totalDiscounts
      else o.totalDiscounts * (li.originalTotal / (o.subtotal + o.totalDiscounts)) := by
    intro li hli
    unfold orderAlloc allocateDiscount
    rw [hnoli li hli]
    rw [if_neg (lt_irrefl 0), if_pos ⟨hD, hS⟩]
  refine ⟨?_, ?_, ?_⟩
  · intro h1 li hli; rw [halloc li hli, if_pos h1]
  · intro h li hli; rw [halloc li hli, if_neg (by omega)]
  · intro hsum
    have hSD : (0 : ℚ) < o.subtotal + o.totalDiscounts := by linarith
    match hlen : o.lineItems, hsum, hnoli, halloc with
    | [], hsum, _, _ => simp at hsum; linarith
    | [li], hsum, hnoli, halloc =>
      have := halloc li (by simp)
      simp only [List.length_singleton, if_pos rfl] at this
      simp [this]
    | li₁ :: li₂ :: rest, hsum, hnoli, halloc =>
      have hlong : ¬ (li₁ :: li₂ :: rest).length = 1 := by simp
      have hmap : (li₁ :: li₂ :: rest).map (orderAlloc o) =
          (li₁ :: li₂ :: rest).map
            (fun li => (o.totalDiscounts / (o.subtotal + o.totalDiscounts)) *
              li.originalTotal) := by
        apply List.map_congr_left
        intro li hli
        rw [halloc li hli, if_neg hlong, div_mul_eq_mul_div, mul_div_assoc]
      rw [hmap, List.sum_map_mul_left]
      have : ((li₁ :: li₂ :: rest).map (fun li => li.originalTotal)).sum =
          o.subtotal + o.totalDiscounts := hsum
      rw [this, div_mul_cancel₀ _ (ne_of_gt hSD)]

def c2Order : Order :=
  { id := "gid2", name := "#1002", createdMs := 0,
    createdIso := "2025-01-05T09:00:00Z", customerId := none, channelName := none,
    totalPrice := 90, subtotal := 90, totalDiscounts := 10, totalShipping := 0,
    gatewayNames := [], lineItems :=
      [⟨some ⟨"pA", "A", "T", []⟩, 1, none, none, none, 60, 0⟩,
       ⟨some ⟨"pB", "B", "T", []⟩, 1, none, none, none, 40, 0⟩] }

theorem c2_discount_proration_witness :
    (c2Order.lineItems.map (orderAlloc c2Order)).sum = c2Order.totalDiscounts :=
  (c2_discount_proration c2Order (by decide) (by decide) (by decide)).2.2
    (by norm_num [c2Order])

/-! ## C6 — default cost assumptions per report (SKU report diverges) -/

/-- C6 (amended): the product and product-type reports hard-wire the
documented default cost assumptions — COGS at `productCostPercent`% of net
revenue, `shippingCostPerOrder` dollars and `transactionFeeFlat` dollars per
order plus `transactionFeePercent`% of net revenue — while the SKU report uses
the same COGS default but estimates fulfillment as $2 per unit of quantity
instead of the order-count-based formula. -/
theorem c6_default_costs_amended (d : ProdAcc) (t : TypeAcc) (s : SkuAcc) :
    (productReportRow d).fulfillmentCost =
      round2 ((d.orderCount : ℚ) * DEFAULT_COST_SETTINGS.shippingCostPerOrder +
        (d.grossRevenue - d.discounts) * DEFAULT_COST_SETTINGS.transactionFeePercent / 100 +
        (d.orderCount : ℚ) * DEFAULT_COST_SETTINGS.transactionFeeFlat)
    ∧ (productReportRow d).cogs =
      round2 ((d.grossRevenue - d.discounts) * DEFAULT_COST_SETTINGS.productCostPercent / 100)
    ∧ (typeReportRow t).fulfillmentCost =
      round2 ((t.orderCount : ℚ) * DEFAULT_COST_SETTINGS.shippingCostPerOrder +
        (t.grossRevenue - t.discounts) * DEFAULT_COST_SETTINGS.transactionFeePercent / 100 +
        (t.orderCount : ℚ) * DEFAULT_COST_SETTINGS.transactionFeeFlat)
    ∧ (typeReportRow t).cogs =
      round2 ((t.grossRevenue - t.discounts) * DEFAULT_COST_SETTINGS.productCostPercent / 100)
    ∧ (skuReportRow s).cogs =
      round2 ((s.grossRevenue - s.discounts) * DEFAULT_COST_SETTINGS.productCostPercent / 100)
    ∧ (skuReportRow s).fulfillmentCost = round2 (2 * (s.quantity : ℚ)) := by
  refine ⟨?_, ?_, ?_, ?_, ?_, ?_⟩ <;>
    · simp only [productReportRow, typeReportRow, skuReportRow, DEFAULT_COST_SETTINGS]
      congr 1
      ring_nf

def c6Order : Order :=
  { id := "gid6", name := "#1006", createdMs := 0,
    createdIso := "2025-01-06T09:00:00Z", customerId := none, channelName := none,
    totalPrice := 100, subtotal := 100, totalDiscounts := 0, totalShipping := 0,
    gatewayNames := [], lineItems :=
      [⟨some ⟨"pW", "Widget", "Widgets", []⟩, 3, some "SKU-A", none, none, 100, 0⟩] }

def c6SkuRow : SkuRow :=
  skuReportRow ((mapGet (skuAgg [c6Order]) "SKU-A").getD default)

/-- C6 counterexample: a single order of one SKU line (quantity 3, $100 net)
yields an aggregated order count of 1, so the claimed formula gives
`1 * $5 + $100 * 2.9% + 1 * $0.30 = $8.20` — but the SKU report emits a
fulfillment cost of `3 * $2 = $6.00`. -/
theorem c6_default_costs_counterexample :
    c6SkuRow.fulfillmentCost = 6 ∧ c6SkuRow.netRevenue = 100 ∧
    round2 ((1 : ℚ) * DEFAULT_COST_SETTINGS.shippingCostPerOrder +
      100 * DEFAULT_COST_SETTINGS.transactionFeePercent / 100 +
      1 * DEFAULT_COST_SETTINGS.transactionFeeFlat) = 8.2 ∧
    (6 : ℚ) ≠ 8.2 := by
  have e1 : ("SKU-A" : String).isEmpty = false := by decide
  have e2 : ("Widget" : String).isEmpty = false := by decide
  have hacc : mapGet (skuAgg [c6Order]) "SKU-A" =
      some ⟨"SKU-A", "Widget", 100, 0, 3⟩ := by
    norm_num [skuAgg, skuStepItem, c6Order, mapGet, mapSet, jsOrStr, e1, e2]
  have hrow : c6SkuRow = skuReportRow ⟨"SKU-A", "Widget", 100, 0, 3⟩ := by
    unfold c6SkuRow
    rw [hacc]
    rfl
  refine ⟨?_, ?_, ?_, by norm_num⟩
  · rw [hrow]
    simp only [skuReportRow]
    rw [round2_eq _ 600 (by norm_num) (by norm_num)]
    norm_num
  · rw [hrow]
    simp only [skuReportRow]
    rw [round2_eq _ 10000 (by norm_num) (by norm_num)]
    norm_num
  · rw [round2_eq _ 820 (by norm_num [DEFAULT_COST_SETTINGS])
      (by norm_num [DEFAULT_COST_SETTINGS])]
    norm_num

/-! ## C1 — the end-to-end waterfall scenario -/

def c1Order : Order :=
  { id := "gid1", name := "#1001", createdMs := 0,
    createdIso := "2025-01-01T10:00:00Z", customerId := none, channelName := none,
    totalPrice := 105, subtotal := 100, totalDiscounts := 10, totalShipping := 5,
    gatewayNames := ["shopify_payments"], lineItems :=
      [⟨some ⟨"p1", "Widget", "Widgets", []⟩, 1, some "SKU-1", none, none, 110, 0⟩] }

def c1Acc : Acc :=
  (mapGet (dashRun 0 ⟨none, none⟩ 1 [c1Order]).weekly 1).getD Acc.zero

def c1Row : ChartRow :=
  (chartData (dashRun 0 ⟨none, none⟩ 1 [c1Order])).headD default

theorem c1_amounts : dashOrderAmounts ⟨none, none⟩ c1Order = ⟨110, 10, 5, 1⟩ := by
  norm_num [dashOrderAmounts, c1Order]

theorem c1_weekly :
    (dashRun 0 ⟨none, none⟩ 1 [c1Order]).weekly = [(1, ⟨110, 10, 1, 5, 1⟩)] := by
  have h : dashRun 0 ⟨none, none⟩ 1 [c1Order] =
      dashStep 0 ⟨none, none⟩ (initDash 1) c1Order := rfl
  rw [h, dashStep_weekly, c1_amounts, if_pos (by norm_num)]
  have hseed : (initDash 1).weekly = [(1, Acc.zero)] := by
    simp [initDash, seedWeekly, List.range_succ]
  have hwk : getWeekNumber c1Order.createdMs 0 = 1 := by decide
  rw [hwk, hseed]
  norm_num [bumpMap, mapGet, mapSet, Acc.zero]

theorem c1_acc : c1Acc = ⟨110, 10, 1, 5, 1⟩ := by
  unfold c1Acc
  rw [c1_weekly]
  rfl

theorem c1_row : c1Row = chartRow (1, ⟨110, 10, 1, 5, 1⟩) := by
  unfold c1Row chartData
  rw [c1_weekly]
  rfl

/-- C1 counterexample: on the claim's own scenario the waterfall does produce
CM2 = $56.66 on netRevenue = $105, but that CM2 as a percent of netRevenue
is 53.96…%, which rounded to one decimal is 54.0 — not the claimed 53.9. -/
theorem c1_waterfall_counterexample :
    c1Row.cm2 = 56.66 ∧ c1Row.netRevenue = 105 ∧
    round1 (c1Row.cm2 / c1Row.netRevenue * 100) ≠ 53.9 := by
  have hcm2 : c1Row.cm2 = 56.66 := by
    rw [c1_row]
    simp only [chartRow, chartGp, chartNetRev, chartCogs, chartFulfill]
    rw [round2_eq _ 5666 (by norm_num) (by norm_num)]
    norm_num
  have hnet : c1Row.netRevenue = 105 := by
    rw [c1_row]
    simp only [chartRow, chartNetRev]
    rw [round2_eq _ 10500 (by norm_num) (by norm_num)]
    norm_num
  refine ⟨hcm2, hnet, ?_⟩
  rw [hcm2, hnet, round1_eq _ 540 (by norm_num) (by norm_num)]
  norm_num

/-- C1 (amended): for the single $100-subtotal / $10-discount / $5-shipping
paid order under the default cost settings, the dashboard waterfall yields
grossRevenue $110, netRevenue $105, COGS $40 on the net-of-discount basis,
gross profit $65, fulfillment $8.345, CM2 rounded to $56.66, and CM2 as a
percent of netRevenue rounded to one decimal is 54.0 (unrounded ≈53.96). -/
theorem c1_waterfall_amended :
    c1Row.grossRevenue = 110 ∧ c1Row.netRevenue = 105 ∧ chartCogs c1Acc = 40 ∧
    c1Row.grossProfit = 65 ∧ chartFulfill c1Acc = 8.345 ∧ c1Row.cm2 = 56.66 ∧
    round1 (c1Row.cm2 / c1Row.netRevenue * 100) = 54 := by
  have hcm2 : c1Row.cm2 = 56.66 := by
    rw [c1_row]
    simp only [chartRow, chartGp, chartNetRev, chartCogs, chartFulfill]
    rw [round2_eq _ 5666 (by norm_num) (by norm_num)]
    norm_num
  have hnet : c1Row.netRevenue = 105 := by
    rw [c1_row]
    simp only [chartRow, chartNetRev]
    rw [round2_eq _ 10500 (by norm_num) (by norm_num)]
    norm_num
  refine ⟨?_, hnet, ?_, ?_, ?_, hcm2, ?_⟩
  · rw [c1_row]
    simp only [chartRow]
    rw [round2_eq _ 11000 (by norm_num) (by norm_num)]
    norm_num
  · rw [c1_acc]
    simp only [chartCogs]
    norm_num
  · rw [c1_row]
    simp only [chartRow, chartGp, chartNetRev, chartCogs]
    rw [round2_eq _ 6500 (by norm_num) (by norm_num)]
    norm_num
  · rw [c1_acc]
    simp only [chartFulfill, chartNetRev]
    norm_num
  · rw [hcm2, hnet, round1_eq _ 540 (by norm_num) (by norm_num)]
    norm_num

end ProfitApp
